/-
Verification of the incremental fetch-paginate-deduplicate-checkpoint engine
of the Netskope event collector (NetskopeEventCollector.py).

The Python module is shallowly embedded below:
  * `Event` models one raw event record (a Python dict).  A field that may be
    missing from the dict is an `Option`; the `timestamp` field additionally
    distinguishes "key absent" (`none`) from "key present with value None"
    (`some none`), because the source treats those differently
    (`event['timestamp']` raises KeyError on an absent key, while a stored
    None raises TypeError inside the guarded multiplication).
  * `LastRun` models the last-run dict: the per-category timestamp keys
    (`'<type>'`) and the per-category id-list keys (`'<type>-ids'`) live in
    two association lists, mirroring the two kinds of values the dict holds.
  * `dedup_by_id`, `populate_parsing_rule_fields` and `get_all_events` are
    translated statement by statement from the source; Python exceptions
    (KeyError from a missing dict key) become `Except.error`.
  * The remote API (`Client.get_events_request_v1/v2`) is an oracle
    `Remote : String → Option Int → Nat → Option (List Event)` giving, for an
    event type, a start time and a skip offset, either an unsuccessful page
    (`none`, the source's `status != 'success'` / `ok != 1` branch) or the
    page's records (newest first, as the remote delivers them).
  * `timestamp_to_datestring(x)` is opaque glue; its result is modelled by
    the integer `x` itself, so `_time` is `some (ts * 1000)`.
-/
import Mathlib

namespace Netskope

/-- Constant `MAX_EVENTS_PAGE_SIZE = 10000` from the source. -/
def MAX_EVENTS_PAGE_SIZE : Nat := 10000

/-- Constant `MAX_SKIP = 50000` from the source. -/
def MAX_SKIP : Nat := 50000

/-- Constant `ALL_SUPPORTED_EVENT_TYPES` from the source. -/
def ALL_SUPPORTED_EVENT_TYPES : List String :=
  ["audit", "page", "network", "application", "alert"]

/-- One raw event record (a Python dict).  `idField` is the `'_id'` key
(`none` = absent or None, the source never distinguishes those for `_id`);
`tsField` is the `'timestamp'` key (`none` = key absent, `some none` = key
present holding None, `some (some n)` = integer timestamp `n`); `payload`
stands for the remaining, engine-irrelevant fields; `event_id`,
`source_log_event` and `timeField` (`'_time'`) are the derived fields the
engine attaches (`none` = not attached yet). -/
structure Event where
  idField : Option String := none
  tsField : Option (Option Int) := none
  payload : String := ""
  event_id : Option (Option String) := none
  source_log_event : Option String := none
  timeField : Option Int := none
deriving DecidableEq, Repr

/-- The last-run dict.  `ts` holds the `'<type>'` keys (value: timestamp or
stored None); `ids` holds the `'<type>-ids'` keys (value: list of ids, an id
being possibly None). -/
structure LastRun where
  ts : List (String × Option Int) := []
  ids : List (String × List (Option String)) := []
deriving DecidableEq, Repr

/-- The fresh `new_last_run` dict built by one `dedup_by_id` call: it can
contain at most the `'<type>'` key (`tsEntry`) and the `'<type>-ids'` key
(`idsEntry`); `none` means the key was never written. -/
structure DedupLastRun where
  tsEntry : Option (Option Int) := none
  idsEntry : Option (List (Option String)) := none
deriving DecidableEq, Repr

/-- Python `set.add` on a list carrying set semantics by membership. -/
def setAdd (s : List (Option String)) (a : Option String) : List (Option String) :=
  if a ∈ s then s else s ++ [a]

/-- Python `set(l)`: deduplicate a list (insertion order as canonical order). -/
def setOfList (l : List (Option String)) : List (Option String) :=
  l.foldl setAdd []

/-- Mutable loop state of `dedup_by_id`: the evolving `last_run_ids` set,
the `new_events` and `new_events_ids` accumulators, and the `'<type>'` entry
written so far into `new_last_run` (`nlrTs`). -/
structure DState where
  lrIds : List (Option String)
  newEvents : List Event
  newIds : List (Option String)
  nlrTs : Option (Option Int)
deriving DecidableEq, Repr

/-- One iteration of the `for event in sorted_list[:limit]` loop of
`dedup_by_id`, given `lastTs = last_run[event_type]`. -/
def dedupStep (lastTs : Option Int) (st : DState) (event : Event) : DState :=
  let event_timestamp := event.tsField.join
  let event_id := event.idField
  let event := { event with event_id := some event_id }
  if event_timestamp = lastTs then
    if event_id ∈ st.lrIds then st
    else { st with newEvents := st.newEvents ++ [event], lrIds := setAdd st.lrIds event_id }
  else
    { st with newEvents := st.newEvents ++ [event],
              newIds := st.newIds ++ [event_id],
              nlrTs := some event_timestamp }

/-- Function `dedup_by_id(last_run, results, event_type, limit)` from the source.
`results.reverse` is the source's `list(reversed(results))`, `.take limit`
its `sorted_list[:limit]`.  The source reads `last_run[event_type]` inside
the loop, which raises KeyError when the key is absent and the truncated
list is nonempty.  The returned `new_last_run` sets `'<type>-ids'` at every
iteration to `new_events_ids or last_run_ids` (Python truthiness: the
current id set when `new_events_ids` is still empty). -/
def dedup_by_id (last_run : LastRun) (results : List Event) (event_type : String)
    (limit : Nat) : Except String (List Event × DedupLastRun) :=
  let last_run_ids := setOfList ((last_run.ids.lookup (event_type ++ "-ids")).getD [])
  let truncated := results.reverse.take limit
  if truncated = [] then
    .ok ([], {})
  else
    match last_run.ts.lookup event_type with
    | none => .error ("KeyError: " ++ event_type)
    | some lastTs =>
      let st := truncated.foldl (dedupStep lastTs) ⟨last_run_ids, [], [], none⟩
      .ok (st.newEvents,
           ⟨st.nlrTs, some (if st.newIds = [] then st.lrIds else st.newIds)⟩)

/-- Function `populate_parsing_rule_fields(event, event_type)` from the source.  It
sets `source_log_event`, then tries `event['timestamp'] * 1000`: an absent
`timestamp` key raises KeyError (NOT caught — the `except` clause only
catches TypeError), a stored None raises TypeError (caught: `_time` is left
absent), an integer yields `_time`. -/
def populate_parsing_rule_fields (event : Event) (event_type : String) :
    Except String Event :=
  let event := { event with source_log_event := some event_type }
  match event.tsField with
  | none => .error "KeyError: timestamp"
  | some none => .ok event
  | some (some n) => .ok { event with timeField := some (n * 1000) }

/-- Python dict assignment `d[k] = v` on an association list: replace the
first binding of `k`, or append a new binding. -/
def upsert (k : String) (v : β) : List (String × β) → List (String × β)
  | [] => [(k, v)]
  | (k', v') :: t => if k' = k then (k, v) :: t else (k', v') :: upsert k v t

/-- Statement `new_last_run.update(partial_last_run)` from `get_all_events`: write the
`'<type>'` and `'<type>-ids'` keys that the `dedup_by_id` call produced. -/
def applyDedup (nlr : LastRun) (event_type : String) (p : DedupLastRun) : LastRun :=
  let nlr := match p.tsEntry with
    | none => nlr
    | some v => { nlr with ts := upsert event_type v nlr.ts }
  match p.idsEntry with
  | none => nlr
  | some l => { nlr with ids := upsert (event_type ++ "-ids") l nlr.ids }

/-- The remote API oracle: event type, `starttime` (the last-run value for
the type, None when absent), `skip` ↦ unsuccessful page (`none`) or the
page's records newest first (`some results`). -/
def Remote : Type := String → Option Int → Nat → Option (List Event)

/-- The `while True` pagination loop of `get_all_events` for one event type,
with explicit fuel.  Each continuing iteration appends exactly
`MAX_EVENTS_PAGE_SIZE` records (the loop breaks on any shorter page), so the
accumulated length hits `MAX_SKIP` within `MAX_SKIP / MAX_EVENTS_PAGE_SIZE`
continuations whenever the remote honours its page-size bound; the fuel
`PAG_FUEL` below therefore never runs out on such oracles. -/
def pagLoop (fetch : Nat → Option (List Event)) :
    Nat → Nat → List Event → List Event
  | 0, _, events => events
  | fuel + 1, skip, events =>
    match fetch skip with
    | none => events
    | some results =>
      let events := events ++ results
      let skip := if results.length = MAX_EVENTS_PAGE_SIZE
                  then skip + MAX_EVENTS_PAGE_SIZE else skip
      if results.length < MAX_EVENTS_PAGE_SIZE ∨ results = []
         ∨ events.length = MAX_SKIP
      then events
      else pagLoop fetch fuel skip events

/-- Fuel that suffices for the pagination loop (5 full pages reach the hard
cap, plus the final iteration). -/
def PAG_FUEL : Nat := MAX_SKIP / MAX_EVENTS_PAGE_SIZE + 1

/-- The body of the `for event_type in ALL_SUPPORTED_EVENT_TYPES` loop of
`get_all_events`: paginate, and when any records accumulated, dedup, merge
the partial last run, evaluate the debug f-string (which raises KeyError
when `new_last_run` lacks the type's timestamp or ids key), attach parsing
rule fields, and extend the merged result. -/
def processType (remote : Remote) (last_run : LastRun) (limit : Nat)
    (acc : List Event × LastRun) (event_type : String) :
    Except String (List Event × LastRun) :=
  let events := pagLoop
    (fun skip => remote event_type (last_run.ts.lookup event_type).join skip)
    PAG_FUEL 0 []
  if events = [] then .ok acc
  else
    match dedup_by_id last_run events event_type limit with
    | .error e => .error e
    | .ok (final_events, part) =>
      let nlr := applyDedup acc.2 event_type part
      match nlr.ts.lookup event_type with
      | none => .error ("KeyError: " ++ event_type)
      | some _ =>
        match nlr.ids.lookup (event_type ++ "-ids") with
        | none => .error ("KeyError: " ++ event_type ++ "-ids")
        | some _ =>
          match final_events.mapM
              (fun e => populate_parsing_rule_fields e event_type) with
          | .error e => .error e
          | .ok populated => .ok (acc.1 ++ populated, nlr)

/-- Function `get_all_events(client, last_run, limit, api_version, is_command)` from
the source.  `limit = none` models Python's `limit is None`, defaulted to
`MAX_EVENTS_PAGE_SIZE`.  The api-version branch only selects the request
shape, which the oracle already abstracts.  A Python exception anywhere
aborts the whole call (`Except.error`). -/
def get_all_events (remote : Remote) (last_run : LastRun) (limit : Option Nat) :
    Except String (List Event × LastRun) :=
  let lim := limit.getD MAX_EVENTS_PAGE_SIZE
  ALL_SUPPORTED_EVENT_TYPES.foldlM (processType remote last_run lim) ([], {})

/-! ### Concrete records and scenarios used by the individual claims -/

/-- Record with id `a`, timestamp 100. -/
def recA100 : Event := { idField := some "a", tsField := some (some 100) }

/-- Record with id `b`, timestamp 100. -/
def recB100 : Event := { idField := some "b", tsField := some (some 100) }

/-- Record with id `c`, timestamp 101. -/
def recC101 : Event := { idField := some "c", tsField := some (some 101) }

/-- Record with id `d`, timestamp 102. -/
def recD102 : Event := { idField := some "d", tsField := some (some 102) }

/-- Record with id `x`, timestamp 50 (older than the checkpoints below). -/
def recX50 : Event := { idField := some "x", tsField := some (some 50) }

/-- Record with id `x` and no `timestamp` key at all. -/
def recNoTs : Event := { idField := some "x" }

/-- Checkpoint state `{audit: 100, audit-ids: {"a"}}`. -/
def lrTs100IdA : LastRun :=
  { ts := [("audit", some 100)], ids := [("audit-ids", [some "a"])] }

/-- Checkpoint state `{audit: 100, audit-ids: {}}`. -/
def lrTs100 : LastRun :=
  { ts := [("audit", some 100)], ids := [("audit-ids", [])] }

/-- The state the entry point seeds on first run: every supported event type
mapped to the configured first-fetch time (0 here) with an empty id list. -/
def seedLastRun : LastRun :=
  { ts := ALL_SUPPORTED_EVENT_TYPES.map (fun t => (t, some 0)),
    ids := ALL_SUPPORTED_EVENT_TYPES.map (fun t => (t ++ "-ids", [])) }

/-- Records with timestamps 10, 10, 12 for the end-to-end scenario. -/
def recA10 : Event := { idField := some "a", tsField := some (some 10) }

/-- Second tied record at timestamp 10. -/
def recB10 : Event := { idField := some "b", tsField := some (some 10) }

/-- The newest record, timestamp 12. -/
def recC12 : Event := { idField := some "c", tsField := some (some 12) }

/-- Remote for the end-to-end scenario: one successful audit page of three
records delivered newest first (timestamps 12, 10, 10); every other page
is an empty success. -/
def remoteEndToEnd : Remote := fun t _ sk =>
  if t = "audit" ∧ sk = 0 then some [recC12, recB10, recA10] else some []

/-- Remote for fetch cycle 1: only event `(id a, ts 100)` exists yet, so the
audit page holds just that record. -/
def remoteCycle1 : Remote := fun t _ sk =>
  if t = "audit" ∧ sk = 0 then some [recA100] else some []

/-- Remote for fetch cycle 2: event `(id b, ts 100)` has arrived, and the
window `starttime = 100` also re-returns `(id a, ts 100)`; the page is
newest-first with the tie broken as `[b, a]`. -/
def remoteCycle2 : Remote := fun t _ sk =>
  if t = "audit" ∧ sk = 0 then some [recB100, recA100] else some []

/-- Remote returning the malformed record (no timestamp key) on the audit
page. -/
def remoteMalformed : Remote := fun t _ sk =>
  if t = "audit" ∧ sk = 0 then some [recNoTs] else some []

/-- Remote returning an empty successful page for every request. -/
def remoteEmpty : Remote := fun _ _ _ => some []

/-- Record `recB100` as `dedup_by_id` delivers it (`event_id` attached). -/
def recB100Out : Event := { recB100 with event_id := some (some "b") }

/-- Record `recC101` as `dedup_by_id` delivers it. -/
def recC101Out : Event := { recC101 with event_id := some (some "c") }

/-- Record `recD102` as `dedup_by_id` delivers it. -/
def recD102Out : Event := { recD102 with event_id := some (some "d") }

/-- Record `recX50` as `dedup_by_id` delivers it. -/
def recX50Out : Event := { recX50 with event_id := some (some "x") }

/-- Record `recA100` as one full cycle delivers it (dedup plus parsing-rule
fields). -/
def recA100Full : Event :=
  { recA100 with event_id := some (some "a"), source_log_event := some "audit",
                 timeField := some 100000 }

/-- The checkpoint state cycle 1 of the exactly-once scenario returns. -/
def cycle1State : LastRun :=
  { ts := [("audit", some 100)], ids := [("audit-ids", [some "a"])] }

/-- Record `recA10` as one full cycle delivers it. -/
def recA10Full : Event :=
  { recA10 with event_id := some (some "a"), source_log_event := some "audit",
                timeField := some 10000 }

/-- Record `recB10` as one full cycle delivers it. -/
def recB10Full : Event :=
  { recB10 with event_id := some (some "b"), source_log_event := some "audit",
                timeField := some 10000 }

/-- Record `recC12` as one full cycle delivers it. -/
def recC12Full : Event :=
  { recC12 with event_id := some (some "c"), source_log_event := some "audit",
                timeField := some 12000 }

/-- The state the end-to-end cycle returns. -/
def endToEndState : LastRun :=
  { ts := [("audit", some 12)],
    ids := [("audit-ids", [some "a", some "b", some "c"])] }

/-! ### Claims -/

/-- C1: the no-duplicate-and-complete-delivery guarantee across cycles fails
on the code.  With events `E1 = (a, 100)` and `E2 = (b, 100)` (timestamps
non-decreasing, stable id/timestamp pairs), cycle 1 delivers `E1` and
returns checkpoint `{audit: 100, audit-ids: [a]}`; cycle 2, fed that state
and a remote window now containing both events, hits the all-ties branch of
`dedup_by_id` (which omits the `audit` timestamp key from the new last run)
and the debug f-string lookup `new_last_run[event_type]` in
`get_all_events` raises KeyError, aborting the cycle — `E2` is never
delivered, so the union of delivered events never reaches `{E1, E2}`. -/
theorem C1_completeness_violated :
    get_all_events remoteCycle1 seedLastRun none = .ok ([recA100Full], cycle1State)
    ∧ get_all_events remoteCycle2 cycle1State none = .error "KeyError: audit" :=
  ⟨rfl, rfl⟩

/-- C3: with prior checkpoint `{lastTimestamp = 100, ids = {a}}` and the
accumulated newest-first batch `[(c,101), (b,100), (a,100)]`, `dedup_by_id`
delivers exactly `[b, c]` in ascending-time order and returns the new
checkpoint `{lastTimestamp: 101, ids: {c}}`, for every limit that keeps all
three records. -/
theorem C3_tie_breaking (limit : Nat) (hlim : 3 ≤ limit) :
    dedup_by_id lrTs100IdA [recC101, recB100, recA100] "audit" limit =
      .ok ([recB100Out, recC101Out], ⟨some (some 101), some [some "c"]⟩) := by
  have h : (([recC101, recB100, recA100] : List Event).reverse).take limit
      = [recA100, recB100, recC101] := by
    rw [show ([recC101, recB100, recA100] : List Event).reverse
          = [recA100, recB100, recC101] from rfl]
    exact List.take_of_length_le (by simpa using hlim)
  simp only [dedup_by_id, h]
  rfl

/-- C3 witness: the tie-breaking scenario at the default limit 10000. -/
theorem C3_tie_breaking_witness :
    dedup_by_id lrTs100IdA [recC101, recB100, recA100] "audit" 10000 =
      .ok ([recB100Out, recC101Out], ⟨some (some 101), some [some "c"]⟩) :=
  C3_tie_breaking 10000 (by decide)

/-- C2 counterexample: the retained id set is NOT limited to ids observed at
the checkpoint's `lastTimestamp`.  From prior `{audit: 100, ids: {}}` and
batch `[(d,102), (c,101)]` (newest first), the new checkpoint is
`{lastTimestamp: 102}` yet its id set `[c, d]` keeps `c`, a record observed
at timestamp 101 ≠ 102: the per-timestamp id list is accumulated across all
new timestamps, never restarted. -/
theorem C2_counterexample :
    dedup_by_id lrTs100 [recD102, recC101] "audit" 10000 =
      .ok ([recC101Out, recD102Out],
           ⟨some (some 102), some [some "c", some "d"]⟩)
    ∧ recC101.tsField = some (some 101) ∧ (101 : Int) ≠ 102 :=
  ⟨rfl, rfl, by decide⟩

/-- C6 counterexample: a record whose timestamp is strictly OLDER than the
prior checkpoint also rewrites the checkpoint timestamp — `dedup_by_id`
compares with `!=`, not `>`.  From prior `{audit: 100, ids: {}}` and the
single record `(x, 50)`, the new checkpoint timestamp is 50 < 100. -/
theorem C6_counterexample :
    dedup_by_id lrTs100 [recX50] "audit" 10000 =
      .ok ([recX50Out], ⟨some (some 50), some [some "x"]⟩)
    ∧ lrTs100.ts.lookup "audit" = some (some 100) ∧ (50 : Int) < 100 :=
  ⟨rfl, rfl, by decide⟩

/-- C5 counterexample: in the end-to-end scenario (seeded empty-start state,
one successful audit page with timestamps `[12, 10, 10]` newest first) the
cycle does deliver the three records ascending, but the new audit id set is
`[a, b, c]` — all three ids, because every timestamp differed from the
seeded start time — not `{c}` (the id of the ts = 12 record) as claimed:
`a` was observed at timestamp 10 ≠ 12 yet is retained. -/
theorem C5_counterexample :
    get_all_events remoteEndToEnd seedLastRun none =
      .ok ([recA10Full, recB10Full, recC12Full], endToEndState)
    ∧ endToEndState.ids.lookup "audit-ids" = some [some "a", some "b", some "c"]
    ∧ some "a" ∈ [some "a", some "b", some "c"]
    ∧ recA10.tsField = some (some 10) ∧ (10 : Int) ≠ 12 :=
  ⟨rfl, rfl, by decide, rfl, by decide⟩

/-- C5 (amended): the end-to-end cycle delivers the three records in
ascending order `[10, 10, 12]` and returns the audit checkpoint
`{lastTimestamp: 12, ids: {a, b, c}}` — the ids of ALL three delivered
records, since each of their timestamps differs from the seeded prior
timestamp. -/
theorem C5_amended_end_to_end :
    get_all_events remoteEndToEnd seedLastRun none =
      .ok ([recA10Full, recB10Full, recC12Full], endToEndState) :=
  rfl

/-- C8: a record missing its `timestamp` key is NOT tolerated — contrary to
the never-fatal error-handling contract, `populate_parsing_rule_fields`
evaluates `event['timestamp']`, whose KeyError is not caught (the `except`
clause only catches TypeError), so the whole `get_all_events` call aborts
instead of forwarding the record without `_time`. -/
theorem C8_malformed_record_is_fatal :
    populate_parsing_rule_fields recNoTs "audit" = .error "KeyError: timestamp"
    ∧ get_all_events remoteMalformed seedLastRun none =
        .error "KeyError: timestamp" :=
  ⟨rfl, rfl⟩

/-! ### Structure of the dedup loop -/

/-- A tie record (timestamp equal to `last_run[event_type]`) is delivered
with its id added to the retained set when the id is new, and skipped
otherwise. -/
theorem dedupStep_tie (lastTs : Option Int) (st : DState) (e : Event)
    (h : e.tsField.join = lastTs) :
    dedupStep lastTs st e =
      if e.idField ∈ st.lrIds then st
      else { st with newEvents := st.newEvents ++ [{ e with event_id := some e.idField }],
                     lrIds := setAdd st.lrIds e.idField } := by
  unfold dedupStep
  rw [if_pos h]

/-- A non-tie record is always delivered, its id is appended to
`new_events_ids`, and `new_last_run[event_type]` is rewritten to its
timestamp. -/
theorem dedupStep_new (lastTs : Option Int) (st : DState) (e : Event)
    (h : ¬ e.tsField.join = lastTs) :
    dedupStep lastTs st e =
      { st with newEvents := st.newEvents ++ [{ e with event_id := some e.idField }],
                newIds := st.newIds ++ [e.idField],
                nlrTs := some e.tsField.join } := by
  unfold dedupStep
  rw [if_neg h]

/-- The `new_events_ids` accumulator collects, in order, the id of every
processed record whose timestamp differs from `last_run[event_type]`. -/
theorem dedup_foldl_newIds (lastTs : Option Int) :
    ∀ (l : List Event) (st : DState),
    (l.foldl (dedupStep lastTs) st).newIds
      = st.newIds ++ (l.filter (fun e => decide (e.tsField.join ≠ lastTs))).map
          (fun e => e.idField)
  | [], _ => by simp
  | e :: l, st => by
    rw [List.foldl_cons, dedup_foldl_newIds lastTs l]
    by_cases h : e.tsField.join = lastTs
    · rw [dedupStep_tie lastTs st e h]
      have hids : (if e.idField ∈ st.lrIds then st
          else { st with newEvents := st.newEvents ++ [{ e with event_id := some e.idField }],
                         lrIds := setAdd st.lrIds e.idField }).newIds = st.newIds := by
        split <;> rfl
      have h2 : (e.tsField.bind fun a => a) = lastTs := h
      rw [hids, List.filter_cons, if_neg (by simp [h2])]
    · have h2 : ¬ (e.tsField.bind fun a => a) = lastTs := h
      rw [dedupStep_new lastTs st e h, List.filter_cons, if_pos (by simp [h2])]
      simp

/-- When every processed record is a tie with `last_run[event_type]`, the
`new_last_run[event_type]` entry is never written. -/
theorem dedup_foldl_nlrTs_ties (lastTs : Option Int) :
    ∀ (l : List Event) (st : DState), (∀ e ∈ l, e.tsField.join = lastTs) →
    (l.foldl (dedupStep lastTs) st).nlrTs = st.nlrTs
  | [], _, _ => rfl
  | e :: l, st, hties => by
    rw [List.foldl_cons,
        dedup_foldl_nlrTs_ties lastTs l _ (fun x hx => hties x (List.mem_cons_of_mem e hx)),
        dedupStep_tie lastTs st e (hties e (List.mem_cons_self e l))]
    split <;> rfl

/-- Once some processed record is not a tie, the `new_last_run[event_type]`
entry is written. -/
theorem dedup_foldl_nlrTs_isSome (lastTs : Option Int) :
    ∀ (l : List Event) (st : DState),
    ((∃ e ∈ l, e.tsField.join ≠ lastTs) ∨ st.nlrTs.isSome) →
    ((l.foldl (dedupStep lastTs) st).nlrTs).isSome
  | [], st, h => by
    rcases h with ⟨e, he, _⟩ | h
    · exact absurd he (List.not_mem_nil e)
    · exact h
  | e :: l, st, h => by
    rw [List.foldl_cons]
    apply dedup_foldl_nlrTs_isSome lastTs l
    by_cases hts : e.tsField.join = lastTs
    · rcases h with ⟨x, hx, hxne⟩ | h
      · rcases List.mem_cons.mp hx with rfl | hx
        · exact absurd hts hxne
        · exact Or.inl ⟨x, hx, hxne⟩
      · refine Or.inr ?_
        rw [dedupStep_tie lastTs st e hts]
        split <;> exact h
    · refine Or.inr ?_
      rw [dedupStep_new lastTs st e hts]
      rfl

/-- Every value written into `new_last_run[event_type]` is the timestamp of
some processed non-tie record. -/
theorem dedup_foldl_nlrTs_some (lastTs : Option Int) :
    ∀ (l : List Event) (st : DState) (v : Option Int),
    (l.foldl (dedupStep lastTs) st).nlrTs = some v →
    st.nlrTs = some v ∨ ∃ e ∈ l, e.tsField.join = v ∧ v ≠ lastTs
  | [], _, _, h => Or.inl h
  | e :: l, st, v, h => by
    rw [List.foldl_cons] at h
    rcases dedup_foldl_nlrTs_some lastTs l _ v h with hstep | ⟨x, hx, hxv⟩
    · by_cases hts : e.tsField.join = lastTs
      · refine Or.inl ?_
        rw [← hstep, dedupStep_tie lastTs st e hts]
        split <;> rfl
      · rw [dedupStep_new lastTs st e hts] at hstep
        have hv : e.tsField.join = v := Option.some_inj.mp hstep
        exact Or.inr ⟨e, List.mem_cons_self e l, hv, hv ▸ hts⟩
    · exact Or.inr ⟨x, List.mem_cons_of_mem e hx, hxv⟩

/-- Non-tie records are always delivered: the count of delivered events
satisfying a predicate (insensitive to the attached `event_id`) is at least
the count of non-tie input records satisfying it. -/
theorem dedup_foldl_countP (lastTs : Option Int) (q : Event → Bool)
    (hq : ∀ e v, q { e with event_id := v } = q e) :
    ∀ (l : List Event) (st : DState),
    st.newEvents.countP q
      + (l.countP (fun e => q e && decide (e.tsField.join ≠ lastTs)))
      ≤ ((l.foldl (dedupStep lastTs) st).newEvents).countP q
  | [], st => by simp
  | e :: l, st => by
    rw [List.foldl_cons, List.countP_cons]
    have ih := dedup_foldl_countP lastTs q hq l (dedupStep lastTs st e)
    refine le_trans ?_ ih
    by_cases hts : e.tsField.join = lastTs
    · have hts2 : (e.tsField.bind fun a => a) = lastTs := hts
      have hcond : (e :: l).countP (fun e => q e && decide (e.tsField.join ≠ lastTs))
          = l.countP (fun e => q e && decide (e.tsField.join ≠ lastTs)) := by
        rw [List.countP_cons]
        simp [hts2]
      have hmono : st.newEvents.countP q
          ≤ ((dedupStep lastTs st e).newEvents).countP q := by
        rw [dedupStep_tie lastTs st e hts]
        split
        · exact le_refl _
        · simp [List.countP_append]
      have hc : (if (q e && decide (e.tsField.join ≠ lastTs)) = true then 1 else 0) = 0 := by
        simp [hts2]
      omega
    · have hstep : (dedupStep lastTs st e).newEvents
          = st.newEvents ++ [{ e with event_id := some e.idField }] := by
        rw [dedupStep_new lastTs st e hts]
      rw [hstep, List.countP_append]
      have hone : (List.countP q [{ e with event_id := some e.idField }])
          = if q e = true then 1 else 0 := by
        simp only [List.countP_cons, List.countP_nil, hq]
        by_cases hqe : q e = true <;> simp [hqe]
      have hts2 : ¬ (e.tsField.bind fun a => a) = lastTs := hts
      rw [hone]
      by_cases hqe : q e = true <;> simp [hqe, hts2]
      all_goals omega

/-- Unfolding `dedup_by_id` on a nonempty truncated batch with the timestamp key
present: the branch actually taken, spelled out. -/
theorem dedup_by_id_eq (last_run : LastRun) (results : List Event)
    (event_type : String) (limit : Nat) (lastTs : Option Int)
    (hne : results.reverse.take limit ≠ [])
    (hts : last_run.ts.lookup event_type = some lastTs) :
    dedup_by_id last_run results event_type limit =
      .ok (((results.reverse.take limit).foldl (dedupStep lastTs)
              ⟨setOfList ((last_run.ids.lookup (event_type ++ "-ids")).getD []),
               [], [], none⟩).newEvents,
           ⟨((results.reverse.take limit).foldl (dedupStep lastTs)
              ⟨setOfList ((last_run.ids.lookup (event_type ++ "-ids")).getD []),
               [], [], none⟩).nlrTs,
            some (if ((results.reverse.take limit).foldl (dedupStep lastTs)
                      ⟨setOfList ((last_run.ids.lookup (event_type ++ "-ids")).getD []),
                       [], [], none⟩).newIds = []
                  then ((results.reverse.take limit).foldl (dedupStep lastTs)
                      ⟨setOfList ((last_run.ids.lookup (event_type ++ "-ids")).getD []),
                       [], [], none⟩).lrIds
                  else ((results.reverse.take limit).foldl (dedupStep lastTs)
                      ⟨setOfList ((last_run.ids.lookup (event_type ++ "-ids")).getD []),
                       [], [], none⟩).newIds)⟩) := by
  unfold dedup_by_id
  rw [if_neg hne, hts]

/-- Unfolding `dedup_by_id` on an empty truncated batch delivers nothing and writes
no last-run key. -/
theorem dedup_by_id_empty (last_run : LastRun) (results : List Event)
    (event_type : String) (limit : Nat)
    (hne : results.reverse.take limit = []) :
    dedup_by_id last_run results event_type limit = .ok ([], {}) := by
  unfold dedup_by_id
  rw [if_pos hne]

/-- A failing step aborts an `Except`-valued left fold. -/
theorem foldlM_except_error {α β : Type} {f : β → α → Except String β} {b : β}
    {a : α} {l : List α} {e : String} (h : f b a = .error e) :
    (a :: l).foldlM f b = .error e := by
  rw [List.foldlM_cons, h]
  rfl

/-- A successful step continues an `Except`-valued left fold. -/
theorem foldlM_except_ok {α β : Type} {f : β → α → Except String β} {b b' : β}
    {a : α} {l : List α} (h : f b a = .ok b') :
    (a :: l).foldlM f b = l.foldlM f b' := by
  rw [List.foldlM_cons, h]
  rfl

/-- C2 (amended): whenever some record in the truncated batch has a
timestamp different from the prior checkpoint's `lastTimestamp`, the
checkpoint returned by `dedup_by_id` retains the ids of ALL such records —
accumulated in processing order across every differing timestamp, not only
those observed at the final `lastTimestamp`. -/
theorem C2_amended_ids_accumulate (last_run : LastRun) (results : List Event)
    (event_type : String) (limit : Nat) (lastTs : Option Int)
    (hts : last_run.ts.lookup event_type = some lastTs)
    (hnew : ∃ e ∈ results.reverse.take limit, e.tsField.join ≠ lastTs) :
    ∃ evs tsv, dedup_by_id last_run results event_type limit =
      .ok (evs, ⟨tsv, some (((results.reverse.take limit).filter
          (fun e => decide (e.tsField.join ≠ lastTs))).map (fun e => e.idField))⟩) := by
  obtain ⟨w, hw, hwne⟩ := hnew
  have htrunc : results.reverse.take limit ≠ [] := by
    intro hnil
    rw [hnil] at hw
    exact List.not_mem_nil w hw
  rw [dedup_by_id_eq last_run results event_type limit lastTs htrunc hts]
  set st := (results.reverse.take limit).foldl (dedupStep lastTs)
    ⟨setOfList ((last_run.ids.lookup (event_type ++ "-ids")).getD []), [], [], none⟩ with hst
  have hids : st.newIds = ((results.reverse.take limit).filter
      (fun e => decide (e.tsField.join ≠ lastTs))).map (fun e => e.idField) := by
    rw [hst, dedup_foldl_newIds lastTs (results.reverse.take limit)]
    simp
  have hwfilter : w ∈ (results.reverse.take limit).filter
      (fun e => decide (e.tsField.join ≠ lastTs)) :=
    List.mem_filter.mpr ⟨hw, by simpa using hwne⟩
  have hnonnil : st.newIds ≠ [] := by
    rw [hids]
    intro hnil
    rw [List.map_eq_nil_iff] at hnil
    rw [hnil] at hwfilter
    exact List.not_mem_nil w hwfilter
  refine ⟨st.newEvents, st.nlrTs, ?_⟩
  rw [if_neg hnonnil, hids]

/-- C6 (amended): `dedup_by_id` writes the new checkpoint timestamp exactly
when some processed record's timestamp DIFFERS (in either direction) from
the prior checkpoint's `lastTimestamp`, and every value written is the
timestamp of such a record — so the checkpoint can also move backwards,
not only strictly forwards. -/
theorem C6_amended_timestamp_rewrite (last_run : LastRun) (results : List Event)
    (event_type : String) (limit : Nat) (lastTs : Option Int)
    (evs : List Event) (nlr : DedupLastRun)
    (hts : last_run.ts.lookup event_type = some lastTs)
    (hok : dedup_by_id last_run results event_type limit = .ok (evs, nlr)) :
    (nlr.tsEntry = none ↔ ∀ e ∈ results.reverse.take limit, e.tsField.join = lastTs)
    ∧ (∀ v, nlr.tsEntry = some v →
        ∃ e ∈ results.reverse.take limit, e.tsField.join = v ∧ v ≠ lastTs) := by
  by_cases htr : results.reverse.take limit = []
  · rw [dedup_by_id_empty last_run results event_type limit htr] at hok
    injection hok with h
    injection h with h1 h2
    subst h2
    constructor
    · simp [htr]
    · intro v hv
      cases hv
  · rw [dedup_by_id_eq last_run results event_type limit lastTs htr hts] at hok
    injection hok with h
    injection h with h1 h2
    subst h2
    dsimp only
    constructor
    · constructor
      · intro hnone e he
        by_contra hene
        have hsome := dedup_foldl_nlrTs_isSome lastTs (results.reverse.take limit)
          ⟨setOfList ((last_run.ids.lookup (event_type ++ "-ids")).getD []),
           [], [], none⟩ (Or.inl ⟨e, he, hene⟩)
        rw [hnone] at hsome
        exact Bool.noConfusion hsome
      · intro hall
        exact dedup_foldl_nlrTs_ties lastTs (results.reverse.take limit) _ hall
    · intro v hv
      rcases dedup_foldl_nlrTs_some lastTs (results.reverse.take limit) _ v hv with h0 | h
      · exact absurd h0 (by simp)
      · exact h

/-- C6 witness for the amended theorem: the single-older-record input. -/
theorem C6_amended_timestamp_rewrite_witness :
    ((⟨some (some 50), some [some "x"]⟩ : DedupLastRun).tsEntry = none
      ↔ ∀ e ∈ ([recX50] : List Event).reverse.take 10000, e.tsField.join = some 100)
    ∧ (∀ v, (⟨some (some 50), some [some "x"]⟩ : DedupLastRun).tsEntry = some v →
        ∃ e ∈ ([recX50] : List Event).reverse.take 10000,
          e.tsField.join = v ∧ v ≠ some 100) :=
  C6_amended_timestamp_rewrite lrTs100 [recX50] "audit" 10000 (some 100)
    [recX50Out] ⟨some (some 50), some [some "x"]⟩ rfl rfl

/-- C10: within one `dedup_by_id` call, duplicate suppression by id applies
only to records whose timestamp equals the prior checkpoint's
`lastTimestamp`; two records sharing an id at any other shared timestamp
are BOTH delivered in the same batch. -/
theorem C10_same_id_new_timestamp_both_delivered (last_run : LastRun)
    (results : List Event) (event_type : String) (limit : Nat)
    (lastTs : Option Int) (i : Option String) (t : Option Int)
    (hts : last_run.ts.lookup event_type = some lastTs)
    (hnelt : t ≠ lastTs)
    (hcount : 2 ≤ (results.reverse.take limit).countP
        (fun e => decide (e.idField = i) && decide (e.tsField.join = t))) :
    ∃ evs nlr, dedup_by_id last_run results event_type limit = .ok (evs, nlr)
      ∧ 2 ≤ evs.countP
          (fun e => decide (e.idField = i) && decide (e.tsField.join = t)) := by
  have htrunc : results.reverse.take limit ≠ [] := by
    intro hnil
    rw [hnil] at hcount
    simp [List.countP_nil] at hcount
  rw [dedup_by_id_eq last_run results event_type limit lastTs htrunc hts]
  set st := (results.reverse.take limit).foldl (dedupStep lastTs)
    ⟨setOfList ((last_run.ids.lookup (event_type ++ "-ids")).getD []), [], [], none⟩ with hst
  refine ⟨st.newEvents, _, rfl, ?_⟩
  have hq : ∀ (e : Event) (v : Option (Option String)),
      (fun e => decide (e.idField = i) && decide (e.tsField.join = t))
          { e with event_id := v }
        = (fun e => decide (e.idField = i) && decide (e.tsField.join = t)) e :=
    fun _ _ => rfl
  have hkey := dedup_foldl_countP lastTs
    (fun e => decide (e.idField = i) && decide (e.tsField.join = t)) hq
    (results.reverse.take limit)
    ⟨setOfList ((last_run.ids.lookup (event_type ++ "-ids")).getD []), [], [], none⟩
  have himp : ∀ a ∈ results.reverse.take limit,
      (fun e => decide (e.idField = i) && decide (e.tsField.join = t)) a = true →
      (fun e => (decide (e.idField = i) && decide (e.tsField.join = t))
          && decide (e.tsField.join ≠ lastTs)) a = true := by
    intro a _ hpa
    simp only [Bool.and_eq_true, decide_eq_true_eq] at hpa ⊢
    exact ⟨hpa, hpa.2 ▸ hnelt⟩
  have h2 := List.countP_mono_left himp
  rw [← hst] at hkey
  simp only [List.countP_nil] at hkey
  omega

/-- Record with id `z`, timestamp 5, payload `p1`. -/
def recZ5a : Event := { idField := some "z", tsField := some (some 5), payload := "p1" }

/-- A second record with the same id `z` and timestamp 5, payload `p2`. -/
def recZ5b : Event := { idField := some "z", tsField := some (some 5), payload := "p2" }

/-- C10 witness: two records with id `z` at timestamp 5 ≠ 100 are both
delivered. -/
theorem C10_same_id_witness :
    ∃ evs nlr, dedup_by_id lrTs100 [recZ5b, recZ5a] "audit" 10 = .ok (evs, nlr)
      ∧ 2 ≤ evs.countP (fun e => decide (e.idField = some "z")
            && decide (e.tsField.join = some 5)) :=
  C10_same_id_new_timestamp_both_delivered lrTs100 [recZ5b, recZ5a] "audit" 10
    (some 100) (some "z") (some 5) rfl (by decide) (by decide)

/-- A successful page shorter than the fixed maximum page size ends the
pagination loop with the page appended to the accumulator. -/
theorem pagLoop_short (fetch : Nat → Option (List Event)) (fuel skip : Nat)
    (events results : List Event) (h : fetch skip = some results)
    (hshort : results.length < MAX_EVENTS_PAGE_SIZE) :
    pagLoop fetch (fuel + 1) skip events = events ++ results := by
  unfold pagLoop
  rw [h]
  exact if_pos (Or.inl hshort)

/-- C9: when a category accumulates a nonempty batch whose every record's
timestamp equals the prior checkpoint's `lastTimestamp` (all ties, no newer
timestamp), `dedup_by_id` returns a new last run holding the `'<type>-ids'`
key but NO timestamp key for the type, and `get_all_events` (shown for the
`audit` category, the first one processed) then raises KeyError on its
debug lookup `new_last_run[event_type]`, aborting the whole cycle. -/
theorem C9_all_ties_raises_keyerror (event_type : String) (last_run : LastRun)
    (batch : List Event) (limit : Nat) (lastTs : Option Int) (remote : Remote)
    (hts : last_run.ts.lookup event_type = some lastTs)
    (hlim : 1 ≤ limit) (hne : batch ≠ [])
    (hties : ∀ e ∈ batch, e.tsField.join = lastTs) :
    (∃ evs ids, dedup_by_id last_run batch event_type limit
        = .ok (evs, ⟨none, some ids⟩))
    ∧ (event_type = "audit" → batch.length < MAX_EVENTS_PAGE_SIZE →
       remote "audit" ((last_run.ts.lookup "audit").join) 0 = some batch →
       get_all_events remote last_run (some limit) = .error "KeyError: audit") := by
  have htrunc : batch.reverse.take limit ≠ [] := by
    have hlen : (batch.reverse.take limit).length = min limit batch.reverse.length :=
      List.length_take _ _
    intro hnil
    rw [hnil] at hlen
    have hbpos : 0 < batch.length := List.length_pos.mpr hne
    rw [List.length_reverse] at hlen
    simp at hlen
    omega
  have hties2 : ∀ e ∈ batch.reverse.take limit, e.tsField.join = lastTs := by
    intro e he
    exact hties e (List.mem_reverse.mp (List.take_subset _ _ he))
  have hdedup : dedup_by_id last_run batch event_type limit
      = .ok (((batch.reverse.take limit).foldl (dedupStep lastTs)
          ⟨setOfList ((last_run.ids.lookup (event_type ++ "-ids")).getD []),
           [], [], none⟩).newEvents,
        ⟨none, some (if ((batch.reverse.take limit).foldl (dedupStep lastTs)
              ⟨setOfList ((last_run.ids.lookup (event_type ++ "-ids")).getD []),
               [], [], none⟩).newIds = []
          then ((batch.reverse.take limit).foldl (dedupStep lastTs)
              ⟨setOfList ((last_run.ids.lookup (event_type ++ "-ids")).getD []),
               [], [], none⟩).lrIds
          else ((batch.reverse.take limit).foldl (dedupStep lastTs)
              ⟨setOfList ((last_run.ids.lookup (event_type ++ "-ids")).getD []),
               [], [], none⟩).newIds)⟩) := by
    rw [dedup_by_id_eq last_run batch event_type limit lastTs htrunc hts]
    rw [dedup_foldl_nlrTs_ties lastTs (batch.reverse.take limit) _ hties2]
  refine ⟨⟨_, _, hdedup⟩, ?_⟩
  intro htype hlen hrem
  subst htype
  show get_all_events remote last_run (some limit) = .error "KeyError: audit"
  unfold get_all_events
  rw [show ALL_SUPPORTED_EVENT_TYPES
      = "audit" :: ["page", "network", "application", "alert"] from rfl]
  apply foldlM_except_error
  show processType remote last_run limit ([], {}) "audit" = .error "KeyError: audit"
  unfold processType
  rw [show PAG_FUEL = 5 + 1 from rfl,
      pagLoop_short (fun skip => remote "audit" ((last_run.ts.lookup "audit").join) skip)
        5 0 [] batch hrem hlen,
      List.nil_append]
  rw [if_neg hne, hdedup]
  rfl

/-- Remote whose audit page is the single tie record `(b, 100)`. -/
def remoteTies : Remote := fun t _ sk =>
  if t = "audit" ∧ sk = 0 then some [recB100] else some []

/-- C9 witness: prior checkpoint `{audit: 100, ids: {a}}`, one accumulated
record `(b, 100)` — the cycle aborts with KeyError. -/
theorem C9_all_ties_witness :
    (∃ evs ids, dedup_by_id lrTs100IdA [recB100] "audit" 5
        = .ok (evs, ⟨none, some ids⟩))
    ∧ get_all_events remoteTies lrTs100IdA (some 5) = .error "KeyError: audit" := by
  have h := C9_all_ties_raises_keyerror "audit" lrTs100IdA [recB100] 5 (some 100)
    remoteTies rfl (by decide) (by decide) (by decide)
  exact ⟨h.1, h.2 rfl (by decide) rfl⟩

/-- C7: for one category, the pagination loop (a) after a successful page
continues exactly when the page is full (equal to the fixed maximum page
size 10000) and the accumulated total has not reached the 50000 hard cap —
i.e. it stops exactly on an unsuccessful page, a short or empty page, or on
reaching the cap — advancing the offset by the page size before the next
request; and (b) under pages within the size bound the accumulated total
never exceeds 50000. -/
theorem C7_pagination_stop_and_cap (fetch : Nat → Option (List Event))
    (hpage : ∀ s r, fetch s = some r → r.length ≤ MAX_EVENTS_PAGE_SIZE) :
    (∀ fuel skip events, pagLoop fetch (fuel + 1) skip events =
        match fetch skip with
        | none => events
        | some results =>
          if results.length = MAX_EVENTS_PAGE_SIZE
             ∧ (events ++ results).length ≠ MAX_SKIP
          then pagLoop fetch fuel (skip + MAX_EVENTS_PAGE_SIZE) (events ++ results)
          else events ++ results)
    ∧ (∀ fuel, (pagLoop fetch fuel 0 []).length ≤ MAX_SKIP) := by
  have emax : MAX_EVENTS_PAGE_SIZE = 10000 := rfl
  have eskip : MAX_SKIP = 50000 := rfl
  have hunf : ∀ fuel skip events, pagLoop fetch (fuel + 1) skip events =
      match fetch skip with
      | none => events
      | some results =>
        if results.length < MAX_EVENTS_PAGE_SIZE ∨ results = []
           ∨ (events ++ results).length = MAX_SKIP
        then events ++ results
        else pagLoop fetch fuel
          (if results.length = MAX_EVENTS_PAGE_SIZE
           then skip + MAX_EVENTS_PAGE_SIZE else skip) (events ++ results) :=
    fun _ _ _ => rfl
  constructor
  · intro fuel skip events
    cases h : fetch skip with
    | none =>
      rw [hunf, h]
    | some results =>
      have hle := hpage skip results h
      rw [hunf, h]
      dsimp only
      by_cases hfull : results.length = MAX_EVENTS_PAGE_SIZE
      · by_cases hcap : (events ++ results).length = MAX_SKIP
        · rw [if_pos (Or.inr (Or.inr hcap)),
              if_neg (show ¬(results.length = MAX_EVENTS_PAGE_SIZE
                ∧ (events ++ results).length ≠ MAX_SKIP) from fun hc => hc.2 hcap)]
        · have hnotshort : ¬(results.length < MAX_EVENTS_PAGE_SIZE ∨ results = []
              ∨ (events ++ results).length = MAX_SKIP) := by
            push_neg
            refine ⟨by omega, ?_, hcap⟩
            intro hnil
            rw [hnil] at hfull
            rw [emax] at hfull
            simp at hfull
          rw [if_neg hnotshort, if_pos hfull,
              if_pos (show results.length = MAX_EVENTS_PAGE_SIZE
                ∧ (events ++ results).length ≠ MAX_SKIP from ⟨hfull, hcap⟩)]
      · have hlt : results.length < MAX_EVENTS_PAGE_SIZE :=
          lt_of_le_of_ne hle hfull
        rw [if_pos (Or.inl hlt),
            if_neg (show ¬(results.length = MAX_EVENTS_PAGE_SIZE
              ∧ (events ++ results).length ≠ MAX_SKIP) from fun hc => hfull hc.1)]
  · have hinv : ∀ fuel skip events,
        events.length % 10000 = 0 → events.length ≤ 40000 →
        (pagLoop fetch fuel skip events).length ≤ 50000 := by
      intro fuel
      induction fuel with
      | zero =>
        intro skip events h1 h2
        show events.length ≤ 50000
        omega
      | succ n ih =>
        intro skip events h1 h2
        cases h : fetch skip with
        | none =>
          rw [hunf, h]
          dsimp only
          omega
        | some results =>
          have hle := hpage skip results h
          rw [emax] at hle
          rw [hunf, h]
          dsimp only
          by_cases hstop : results.length < MAX_EVENTS_PAGE_SIZE ∨ results = []
              ∨ (events ++ results).length = MAX_SKIP
          · rw [if_pos hstop]
            rw [List.length_append]
            omega
          · rw [if_neg hstop]
            push_neg at hstop
            rw [emax] at hstop
            have hfull : results.length = 10000 := by omega
            rw [if_pos (show results.length = MAX_EVENTS_PAGE_SIZE from
                  emax ▸ hfull)]
            apply ih
            · rw [List.length_append]
              omega
            · have hne := hstop.2.2
              rw [eskip, List.length_append] at hne
              rw [List.length_append]
              omega
    intro fuel
    exact hinv fuel 0 [] (by simp) (by simp)

/-- C7 witness: the theorem applied to a remote that always returns an
empty successful page. -/
theorem C7_pagination_witness :
    (pagLoop (fun _ => some ([] : List Event)) 6 0 []).length ≤ MAX_SKIP :=
  (C7_pagination_stop_and_cap (fun _ => some [])
    (fun _ r h => by
      injection h with h1
      rw [← h1]
      exact Nat.zero_le _)).2 6

/-- C4 counterexample: a category (audit) that accumulates no records does
NOT keep its checkpoint in the returned state — the state returned by
`get_all_events` is built from an empty dict and simply has no entry for the
category, while the prior state still holds `{audit: 100, ids: {a}}`. -/
theorem C4_counterexample :
    get_all_events remoteEmpty lrTs100IdA none = .ok ([], {})
    ∧ lrTs100IdA.ts.lookup "audit" = some (some 100)
    ∧ ({} : LastRun).ts.lookup "audit" = none
    ∧ lrTs100IdA.ids.lookup "audit-ids" = some [some "a"]
    ∧ ({} : LastRun).ids.lookup "audit-ids" = none :=
  ⟨rfl, rfl, rfl, rfl, rfl⟩

/-- Appending the `-ids` suffix preserves key distinctness. -/
theorem append_ids_ne {a b : String} (h : a ≠ b) : a ++ "-ids" ≠ b ++ "-ids" := by
  intro he
  apply h
  have hd : a.data ++ "-ids".data = b.data ++ "-ids".data := by
    have hc := congrArg String.data he
    simpa [String.data_append] using hc
  exact String.ext (List.append_cancel_right hd)

/-- Writing one key of a dict leaves lookups of a different key unchanged. -/
theorem lookup_upsert_ne {β : Type} (k k' : String) (v : β)
    (l : List (String × β)) (h : k' ≠ k) :
    (upsert k' v l).lookup k = l.lookup k := by
  have hb : (k == k') = false := by
    simp [Ne.symm h]
  induction l with
  | nil =>
    show List.lookup k [(k', v)] = List.lookup k []
    simp [List.lookup, hb]
  | cons p t ih =>
    obtain ⟨k2, v2⟩ := p
    show List.lookup k (upsert k' v ((k2, v2) :: t)) = List.lookup k ((k2, v2) :: t)
    unfold upsert
    by_cases hk : k2 = k'
    · rw [if_pos hk]
      subst hk
      simp [List.lookup, hb]
    · rw [if_neg hk]
      cases hbeq : k == k2
      · simp [List.lookup, hbeq, ih]
      · simp [List.lookup, hbeq]

/-- Merging one category's dedup result into the state leaves every other
category's timestamp and id-set lookups unchanged. -/
theorem applyDedup_lookup_ne (nlr : LastRun) (t : String) (p : DedupLastRun)
    (T : String) (hne : t ≠ T) :
    (applyDedup nlr t p).ts.lookup T = nlr.ts.lookup T
    ∧ (applyDedup nlr t p).ids.lookup (T ++ "-ids")
        = nlr.ids.lookup (T ++ "-ids") := by
  obtain ⟨pts, pids⟩ := p
  unfold applyDedup
  cases pts <;> cases pids <;> dsimp only <;>
    exact ⟨by first
            | rfl
            | exact lookup_upsert_ne T t _ _ hne,
           by first
            | rfl
            | exact lookup_upsert_ne (T ++ "-ids") (t ++ "-ids") _ _
                (append_ids_ne hne)⟩

/-- A successful `processType` step for one category leaves every other
category's keys in the accumulated state untouched. -/
theorem processType_preserves (remote : Remote) (lr : LastRun) (lim : Nat)
    (acc : List Event × LastRun) (t : String) (res : List Event × LastRun)
    (T : String) (hne : t ≠ T)
    (h : processType remote lr lim acc t = .ok res) :
    res.2.ts.lookup T = acc.2.ts.lookup T
    ∧ res.2.ids.lookup (T ++ "-ids") = acc.2.ids.lookup (T ++ "-ids") := by
  unfold processType at h
  by_cases hev : pagLoop
      (fun skip => remote t ((lr.ts.lookup t).join) skip) PAG_FUEL 0 [] = []
  · rw [if_pos hev] at h
    injection h with h1
    subst h1
    exact ⟨rfl, rfl⟩
  · rw [if_neg hev] at h
    cases hd : dedup_by_id lr
        (pagLoop (fun skip => remote t ((lr.ts.lookup t).join) skip) PAG_FUEL 0 [])
        t lim with
    | error e =>
      rw [hd] at h
      cases h
    | ok pr =>
      rw [hd] at h
      obtain ⟨fe, part⟩ := pr
      dsimp only at h
      cases hts1 : (applyDedup acc.2 t part).ts.lookup t with
      | none =>
        rw [hts1] at h
        cases h
      | some w =>
        rw [hts1] at h
        cases hids1 : (applyDedup acc.2 t part).ids.lookup (t ++ "-ids") with
        | none =>
          rw [hids1] at h
          cases h
        | some w2 =>
          rw [hids1] at h
          cases hm : fe.mapM (fun e => populate_parsing_rule_fields e t) with
          | error e2 =>
            rw [hm] at h
            cases h
          | ok popd =>
            rw [hm] at h
            injection h with h1
            subst h1
            exact applyDedup_lookup_ne acc.2 t part T hne

/-- Folding `processType` over any list of categories preserves the keys of
a category whose pagination accumulated nothing. -/
theorem foldlM_processType_preserves (remote : Remote) (lr : LastRun)
    (lim : Nat) (T : String) :
    ∀ (types : List String) (acc res : List Event × LastRun),
    types.foldlM (processType remote lr lim) acc = .ok res →
    pagLoop (fun skip => remote T ((lr.ts.lookup T).join) skip) PAG_FUEL 0 [] = [] →
    res.2.ts.lookup T = acc.2.ts.lookup T
    ∧ res.2.ids.lookup (T ++ "-ids") = acc.2.ids.lookup (T ++ "-ids")
  | [], acc, res, h, _ => by
    rw [List.foldlM_nil] at h
    have h2 : Except.ok (ε := String) acc = .ok res := h
    injection h2 with h3
    subst h3
    exact ⟨rfl, rfl⟩
  | t :: types, acc, res, h, hempt => by
    by_cases hT : t = T
    · subst hT
      have hstep : processType remote lr lim acc t = .ok acc := by
        unfold processType
        rw [hempt, if_pos rfl]
      rw [foldlM_except_ok hstep] at h
      exact foldlM_processType_preserves remote lr lim t types acc res h hempt
    · cases hstep : processType remote lr lim acc t with
      | error e =>
        rw [foldlM_except_error hstep] at h
        cases h
      | ok acc2 =>
        rw [foldlM_except_ok hstep] at h
        have h1 := processType_preserves remote lr lim acc t acc2 T hT hstep
        have h2 := foldlM_processType_preserves remote lr lim T types acc2 res h hempt
        exact ⟨h2.1.trans h1.1, h2.2.trans h1.2⟩

/-- C4 (amended): a category whose pagination accumulates no records gets
NO entry at all in the state returned by `get_all_events` — both its
timestamp key and its `-ids` key are absent from the returned mapping,
which is built fresh rather than carried over from the prior state (the
prior state value itself is never modified). -/
theorem C4_amended_absent_entry (remote : Remote) (last_run : LastRun)
    (limit : Option Nat) (T : String) (res : List Event × LastRun)
    (hempty : pagLoop
        (fun skip => remote T ((last_run.ts.lookup T).join) skip) PAG_FUEL 0 [] = [])
    (hok : get_all_events remote last_run limit = .ok res) :
    res.2.ts.lookup T = none ∧ res.2.ids.lookup (T ++ "-ids") = none := by
  unfold get_all_events at hok
  have h := foldlM_processType_preserves remote last_run
    (limit.getD MAX_EVENTS_PAGE_SIZE) T ALL_SUPPORTED_EVENT_TYPES ([], {}) res
    hok hempty
  exact h

/-- C4 amended witness: the all-empty remote against the prior audit
checkpoint. -/
theorem C4_amended_absent_entry_witness :
    (([], ({} : LastRun)) : List Event × LastRun).2.ts.lookup "audit" = none
    ∧ (([], ({} : LastRun)) : List Event × LastRun).2.ids.lookup
        ("audit" ++ "-ids") = none :=
  C4_amended_absent_entry remoteEmpty lrTs100IdA none "audit" ([], {}) rfl rfl

/-- C2 amended witness: the two-new-timestamp batch instantiating the
accumulated-ids characterisation. -/
theorem C2_amended_ids_accumulate_witness :
    ∃ evs tsv, dedup_by_id lrTs100 [recD102, recC101] "audit" 10000 =
      .ok (evs, ⟨tsv, some (((([recD102, recC101] : List Event).reverse.take 10000).filter
          (fun e => decide (e.tsField.join ≠ some 100))).map (fun e => e.idField))⟩) :=
  C2_amended_ids_accumulate lrTs100 [recD102, recC101] "audit" 10000 (some 100)
    rfl ⟨recC101, by decide, by decide⟩

end Netskope
